import Mathlib

/-! Verification of the crawl engine of `Gui-scraper.py`: the bounded URL
collector, disallowed-fragment filtering, recursive sitemap resolution,
the page-extraction control flow and the orchestration loop, modelled as
pure Lean functions over explicit state and event traces. -/

/-- Model of class `URLCollector` (`Gui-scraper.py`): `limit` is a Python
int (`0` means unlimited), `urls` the accumulated URL list in insertion
order. -/
structure URLCollector where
  limit : Int
  urls : List String
deriving Repr, DecidableEq

/-- Model of `URLCollector.add_urls` (`Gui-scraper.py` lines 34-50).
Appends `new_urls` while respecting the limit and returns the updated
collector together with the Python return value (`False` exactly when the
limit has been reached). -/
def URLCollector.add_urls (c : URLCollector) (new_urls : List String) :
    URLCollector × Bool :=
  if c.limit ≤ 0 then
    ({ c with urls := c.urls ++ new_urls }, true)
  else
    let remaining : Int := c.limit - c.urls.length
    if remaining ≤ 0 then (c, false)
    else if (new_urls.length : Int) > remaining then
      ({ c with urls := c.urls ++ new_urls.take remaining.toNat }, false)
    else
      ({ c with urls := c.urls ++ new_urls }, true)

/-- Model of `is_allowed` (`Gui-scraper.py` lines 52-54): `true` when no
disallowed fragment occurs in the URL; Python's `fragment in url` is
case-sensitive contiguous-substring containment, modelled as `List.IsInfix`
on the character sequences. -/
def is_allowed (url : String) (disallowed_fragments : List String) : Bool :=
  !(disallowed_fragments.any fun fragment => decide (fragment.data <:+: url.data))

/-- Run of a sequence of `add_urls` calls starting from a collector created
as `URLCollector(limit)` (empty URL list), as in `get_allowed_urls`. -/
def add_urls_run (limit : Int) (batches : List (List String)) : URLCollector :=
  batches.foldl (fun c b => (c.add_urls b).1) ⟨limit, []⟩

/-- Abstraction of one fetched sitemap document tree, as `get_sitemap_urls`
(`Gui-scraper.py` lines 56-117) observes it through `requests.get` and
`BeautifulSoup`: each node carries its URL; fetching it either fails
(`requests.RequestException`), yields a `<sitemapindex>` whose `<sitemap>`
entries with a `<loc>` point to child documents (entries without a `<loc>`
are skipped by the code and therefore not represented), yields a `<urlset>`
with its `<loc>` texts, or yields neither recognized shape. -/
inductive SitemapTree where
  | fetchFail (url : String)
  | index (url : String) (children : List SitemapTree)
  | urlset (url : String) (locs : List String)
  | unrec (url : String)
deriving Repr

mutual
/-- Model of `get_sitemap_urls` (`Gui-scraper.py` lines 56-117). Returns
the final collector, the Python return value, and the trace of URLs fetched
(each `requests.get` issued), in order. The code first short-circuits when
the collector is full; a failed fetch returns `[]` and leaves the collector
untouched; a sitemap index walks the children via the loop modelled by
`sitemap_children`; a urlset filters by `is_allowed` and calls `add_urls`;
an unrecognized document only logs a warning. -/
def get_sitemap_urls : SitemapTree → URLCollector → List String →
    URLCollector × List String × List String
  | t, c, disallowed =>
    if c.limit > 0 ∧ (c.urls.length : Int) ≥ c.limit then (c, c.urls, [])
    else
      match t with
      | .fetchFail u => (c, [], [u])
      | .index u children =>
        let r := sitemap_children children c disallowed
        (r.1, r.1.urls, u :: r.2)
      | .urlset u locs =>
        let allowed_urls := locs.filter (fun x => is_allowed x disallowed)
        let c2 := (c.add_urls allowed_urls).1
        (c2, c2.urls, [u])
      | .unrec u => (c, c.urls, [u])

/-- Model of the `for tag in sitemap_tags` loop inside `get_sitemap_urls`
(lines 88-96): each child check `break`s once the collector is full,
otherwise recursively resolves the sub-sitemap. Returns the final collector
and the concatenated fetch trace. -/
def sitemap_children : List SitemapTree → URLCollector → List String →
    URLCollector × List String
  | [], c, _ => (c, [])
  | t :: ts, c, disallowed =>
    if c.limit > 0 ∧ (c.urls.length : Int) ≥ c.limit then (c, [])
    else
      let r := get_sitemap_urls t c disallowed
      let r2 := sitemap_children ts r.1 disallowed
      (r2.1, r.2.2 ++ r2.2)
end

/-- Model of `get_allowed_urls` (`Gui-scraper.py` lines 119-134): when the
entry string contains `.xml` (case-insensitively) it is resolved as a
sitemap whose fetched document tree is `tree`; otherwise it is a single
page URL added through the same collector when `is_allowed` accepts it. -/
def get_allowed_urls (sitemap_or_url : String) (tree : SitemapTree)
    (disallowed : List String) (limit : Int) : List String :=
  let collector : URLCollector := ⟨limit, []⟩
  if (".xml").data <:+: sitemap_or_url.data.map Char.toLower then
    (get_sitemap_urls tree collector disallowed).1.urls
  else if is_allowed sitemap_or_url disallowed then
    ((collector.add_urls [sitemap_or_url]).1).urls
  else
    collector.urls

/-- Events of a `scrape_content` run that the claims observe: the plain
HTTP GET (line 181), the Playwright render (line 163), and the randomized
politeness sleep (line 240). The short fixed pause-poll sleeps are neither
network calls nor the politeness delay, so they are not traced. -/
inductive ScrapeEv where
  | httpGet (url : String)
  | render (url : String)
  | sleepDelay
deriving Repr, DecidableEq

/-- Model of a fetched page as `scrape_content` observes it through
`BeautifulSoup`: the stripped heading texts in document order, the stripped
paragraph texts (possibly empty — the code drops the empty ones), the
`(src, alt)` attribute pairs of the images carrying a `src`, and the three
optional meta contents. The HTML parsing itself is the external library
collaborator. -/
structure PageContent where
  headings : List String
  paragraphs : List String
  images : List (String × String)
  meta_description : Option String
  meta_keywords : Option String
  meta_og_title : Option String
deriving Repr, DecidableEq

/-- Model of the populated dict built at lines 242-250 of `scrape_content`;
the empty Python dict `{}` is modelled as `none` at the call sites. -/
structure ScrapeRecord where
  url : String
  headings : List String
  paragraphs : List String
  images : List (String × String)
  meta_description : String
  meta_keywords : String
  meta_og_title : String
deriving Repr, DecidableEq

/-- Extraction part of `scrape_content` (lines 195-226): headings kept as
is, paragraphs with empty stripped text dropped, each image `src` resolved
against the page URL by `urljoin` (external collaborator passed as a
function), meta contents defaulted to the empty string when absent. -/
def extract_record (url : String) (urljoin : String → String → String)
    (page : PageContent) : ScrapeRecord :=
  { url := url
    headings := page.headings
    paragraphs := page.paragraphs.filter (fun p => p ≠ "")
    images := page.images.map (fun i => (urljoin url i.1, i.2))
    meta_description := page.meta_description.getD ""
    meta_keywords := page.meta_keywords.getD ""
    meta_og_title := page.meta_og_title.getD "" }

/-- Model of one `while pause_event.is_set()` polling loop of
`scrape_content` (lines 151-154 and 231-234). The shared flags are
modelled as boolean streams sampled once per `is_set()` call starting at
instant `t`; `fuel` bounds the number of iterations considered, since the
Python loop spins while paused. Returns `none` when the fuel runs out
still paused, otherwise whether the loop exited through a stop (`true`) or
through the pause clearing (`false`), with the next sampling instant. -/
def pause_wait (pause stop_flag : Nat → Bool) : Nat → Nat → Option (Bool × Nat)
  | t, 0 => if pause t then none else some (false, t + 1)
  | t, fuel + 1 =>
    if pause t then
      if stop_flag (t + 1) then some (true, t + 2)
      else pause_wait pause stop_flag (t + 2) fuel
    else some (false, t + 1)

/-- Model of `scrape_content` (`Gui-scraper.py` lines 136-250). `pause` and
`stop_flag` are the flag streams sampled at successive `is_set()` calls;
`fetch` is the outcome of the single network access (`none` models both a
`requests.RequestException` and a Playwright failure, each turned into
`{}` by the code); `js_enabled` selects the Playwright render over the
HTTP GET. The overall `none` means the bounded pause model ran out of
fuel; otherwise the returned dict (`none` for Python `{}`) comes with the
trace of network calls and the politeness sleep — the randomly drawn
delay duration is not observed by any claim, only the sleep event. -/
def scrape_content (url : String) (pause stop_flag : Nat → Bool)
    (fetch : Option PageContent) (urljoin : String → String → String)
    (js_enabled : Bool) (fuel : Nat) :
    Option (Option ScrapeRecord × List ScrapeEv) :=
  if stop_flag 0 then some (none, [])
  else
    match pause_wait pause stop_flag 1 fuel with
    | none => none
    | some (true, _) => some (none, [])
    | some (false, t) =>
      let fetch_ev := if js_enabled then ScrapeEv.render url else ScrapeEv.httpGet url
      match fetch with
      | none => some (none, [fetch_ev])
      | some page =>
        let record := extract_record url urljoin page
        if stop_flag t then some (none, [fetch_ev])
        else
          match pause_wait pause stop_flag (t + 1) fuel with
          | none => none
          | some (true, _) => some (none, [fetch_ev])
          | some (false, _) =>
            some (some record, [fetch_ev, ScrapeEv.sleepDelay])

/-- Outcome of one completed future as the loop of `scrape_all_urls`
observes it: `future.result()` returns the scraped dict (`none` models the
empty dict `{}`) or raises an exception carrying a description. -/
inductive TaskOutcome where
  | ok (data : Option ScrapeRecord)
  | exc (description : String)
deriving Repr, DecidableEq

/-- Reference status message of the completion loop of `scrape_all_urls`
(lines 288-298) for completion number `i` of `total`: success with data,
empty result, and exception. -/
def completion_msg (i total : Nat) (url : String) : TaskOutcome → String
  | .ok (some _) =>
    "[" ++ toString i ++ "/" ++ toString total ++ "] OK: " ++ url
  | .ok none =>
    "[" ++ toString i ++ "/" ++ toString total ++ "] Échec ou annulé: " ++ url
  | .exc e =>
    "[" ++ toString i ++ "/" ++ toString total ++ "] Exception pour " ++ url
      ++ ": " ++ e

/-- Model of the completion loop of `scrape_all_urls` (lines 282-304):
`completions` lists the futures in completion order with their outcomes,
`i` is the 1-based completion number, `stop_flag` the stop-event stream
sampled once per iteration (a set stop breaks the loop). Returns the
accumulated results and the `(i, total, message)` progress notifications;
the code sends the same message to the persistent log, `progress_callback`
and `log_callback`. -/
def scrape_loop (total : Nat) (stop_flag : Nat → Bool) :
    Nat → List (String × TaskOutcome) →
    List ScrapeRecord × List (Nat × Nat × String)
  | _, [] => ([], [])
  | i, (url, outcome) :: rest =>
    if stop_flag i then ([], [])
    else
      let msg :=
        match outcome with
        | .ok (some _) =>
          "[" ++ toString i ++ "/" ++ toString total ++ "] OK: " ++ url
        | .ok none =>
          "[" ++ toString i ++ "/" ++ toString total ++ "] Échec ou annulé: "
            ++ url
        | .exc e =>
          "[" ++ toString i ++ "/" ++ toString total ++ "] Exception pour "
            ++ url ++ ": " ++ e
      let r := scrape_loop total stop_flag (i + 1) rest
      ((match outcome with | .ok (some d) => d :: r.1 | _ => r.1),
        (i, total, msg) :: r.2)

/-- Model of `scrape_all_urls` (lines 252-306): with no URLs it returns
immediately and no pool is created; otherwise one future per URL is
submitted and the completions are consumed in completion order. The worker
count only determines which completion orders can arise, so the model
takes the completion sequence as an input. -/
def scrape_all_urls (urls : List String)
    (completions : List (String × TaskOutcome)) (stop_flag : Nat → Bool) :
    List ScrapeRecord × List (Nat × Nat × String) :=
  if urls.length = 0 then ([], [])
  else scrape_loop urls.length stop_flag 1 completions

/-- Records of the completions whose extraction succeeded (non-empty
dict), in completion order. -/
def successful_records (completions : List (String × TaskOutcome)) :
    List ScrapeRecord :=
  completions.filterMap (fun p =>
    match p.2 with
    | .ok (some d) => some d
    | _ => none)

lemma add_urls_fst_limit (c : URLCollector) (new_urls : List String) :
    (c.add_urls new_urls).1.limit = c.limit := by
  unfold URLCollector.add_urls
  split
  · rfl
  · dsimp only
    split
    · rfl
    · split <;> rfl

lemma add_urls_len_le (c : URLCollector) (new_urls : List String)
    (hpos : 0 < c.limit) (hle : (c.urls.length : Int) ≤ c.limit) :
    ((c.add_urls new_urls).1.urls.length : Int) ≤ c.limit := by
  unfold URLCollector.add_urls
  split
  · omega
  · dsimp only
    split
    · exact hle
    · split
      · simp only [List.length_append, List.length_take]
        rename_i hrem hgt
        push_cast
        omega
      · simp only [List.length_append]
        rename_i hrem hng
        push_cast
        omega

lemma add_urls_stop_fix (c : URLCollector) (new_urls : List String)
    (hpos : 0 < c.limit) (hfull : c.limit ≤ (c.urls.length : Int)) :
    c.add_urls new_urls = (c, false) := by
  unfold URLCollector.add_urls
  split
  · omega
  · dsimp only
    rw [if_pos (by omega)]

lemma add_urls_run_invariant (limit : Int) (hpos : 0 < limit)
    (batches : List (List String)) :
    (add_urls_run limit batches).limit = limit ∧
    ((add_urls_run limit batches).urls.length : Int) ≤ limit := by
  unfold add_urls_run
  suffices h : ∀ (bs : List (List String)) (c : URLCollector),
      0 < c.limit → (c.urls.length : Int) ≤ c.limit →
      (bs.foldl (fun c b => (c.add_urls b).1) c).limit = c.limit ∧
      ((bs.foldl (fun c b => (c.add_urls b).1) c).urls.length : Int) ≤ c.limit by
    exact h batches ⟨limit, []⟩ hpos (by simpa using hpos.le)
  intro bs
  induction bs with
  | nil => intro c h0 h1; exact ⟨rfl, h1⟩
  | cons b bs ih =>
    intro c h0 h1
    have hlim := add_urls_fst_limit c b
    have hlen := add_urls_len_le c b h0 h1
    have := ih (c.add_urls b).1 (by rw [hlim]; exact h0) (by rw [hlim]; exact hlen)
    simp only [List.foldl_cons]
    rw [this.1, hlim]
    exact ⟨rfl, by rw [hlim] at this; exact this.2⟩

/-- C1: for every limit `> 0`, after any sequence of `add_urls` calls on a
collector created with that limit, `len(urls) ≤ limit` holds, and once
`len(urls) = limit` every subsequent `add_urls` call leaves the collector
unchanged and returns `False` (the stop signal). -/
theorem addUrls_bounded_and_stops (limit : Int) (hpos : 0 < limit) :
    (∀ batches : List (List String),
      ((add_urls_run limit batches).urls.length : Int) ≤ limit) ∧
    (∀ (batches : List (List String)) (new_urls : List String),
      ((add_urls_run limit batches).urls.length : Int) = limit →
      (add_urls_run limit batches).add_urls new_urls
        = (add_urls_run limit batches, false)) := by
  constructor
  · intro batches
    exact (add_urls_run_invariant limit hpos batches).2
  · intro batches new_urls hfull
    have hlim := (add_urls_run_invariant limit hpos batches).1
    exact add_urls_stop_fix _ _ (by rw [hlim]; exact hpos) (by rw [hlim]; omega)

/-- Witness for C1 at limit 2 with batches `[["a"], ["b", "c"]]`: the bound
holds and, the collector being full, one more call is a no-op returning
`False`. -/
theorem addUrls_bounded_and_stops_witness :
    (0 : Int) < 2 ∧
    ((add_urls_run 2 [["a"], ["b", "c"]]).urls.length : Int) ≤ 2 ∧
    (add_urls_run 2 [["a"], ["b", "c"]]).add_urls ["d"]
      = (add_urls_run 2 [["a"], ["b", "c"]], false) :=
  ⟨by decide,
   (addUrls_bounded_and_stops 2 (by decide)).1 [["a"], ["b", "c"]],
   (addUrls_bounded_and_stops 2 (by decide)).2 [["a"], ["b", "c"]] ["d"] (by decide)⟩

/-- C2: a single `add_urls` call follows the four-case reference
definition: with `limit ≤ 0` it appends everything and returns `True`;
otherwise with `remaining = limit - len(urls)`, if `remaining ≤ 0` it
appends nothing and returns `False`; if more URLs arrive than remain it
appends exactly the first `remaining` ones in order and returns `False`;
else it appends everything and returns `True`. -/
theorem addUrls_four_cases (c : URLCollector) (new_urls : List String) :
    (c.limit ≤ 0 →
      c.add_urls new_urls = ({ c with urls := c.urls ++ new_urls }, true)) ∧
    (0 < c.limit → c.limit - (c.urls.length : Int) ≤ 0 →
      c.add_urls new_urls = (c, false)) ∧
    (0 < c.limit → 0 < c.limit - (c.urls.length : Int) →
      (new_urls.length : Int) > c.limit - (c.urls.length : Int) →
      c.add_urls new_urls
        = ({ c with
              urls := c.urls ++ new_urls.take (c.limit - (c.urls.length : Int)).toNat },
           false)) ∧
    (0 < c.limit → 0 < c.limit - (c.urls.length : Int) →
      (new_urls.length : Int) ≤ c.limit - (c.urls.length : Int) →
      c.add_urls new_urls = ({ c with urls := c.urls ++ new_urls }, true)) := by
  refine ⟨?_, ?_, ?_, ?_⟩
  · intro h
    unfold URLCollector.add_urls
    rw [if_pos h]
  · intro h0 h1
    unfold URLCollector.add_urls
    rw [if_neg (by omega)]
    dsimp only
    rw [if_pos h1]
  · intro h0 h1 h2
    unfold URLCollector.add_urls
    rw [if_neg (by omega)]
    dsimp only
    rw [if_neg (by omega), if_pos h2]
  · intro h0 h1 h2
    unfold URLCollector.add_urls
    rw [if_neg (by omega)]
    dsimp only
    rw [if_neg (by omega), if_neg (by omega)]

/-- Witness for C2: the truncating case at limit 2 with one URL already
stored takes exactly the first remaining element. -/
theorem addUrls_four_cases_witness :
    (0 : Int) < 2 ∧ (0 : Int) < 2 - 1 ∧ ((2 : Int) > 2 - 1) ∧
    URLCollector.add_urls ⟨2, ["a"]⟩ ["b", "c"] = (⟨2, ["a", "b"]⟩, false) := by
  refine ⟨by decide, by decide, by decide, ?_⟩
  have h := (addUrls_four_cases ⟨2, ["a"]⟩ ["b", "c"]).2.2.1
      (by decide) (by decide) (by decide)
  simpa using h

lemma sitemap_full_short_circuit (d : List String) (t : SitemapTree)
    (c : URLCollector) (h0 : 0 < c.limit) (h1 : c.limit ≤ (c.urls.length : Int)) :
    get_sitemap_urls t c d = (c, c.urls, []) := by
  rw [get_sitemap_urls.eq_def]
  dsimp only
  rw [if_pos ⟨h0, h1⟩]

/-- C3: during sitemap resolution with a positive limit, once the collector
is full `get_sitemap_urls` returns immediately with the collector unchanged
and an empty fetch trace, and the sitemap-index child loop likewise issues
no further sub-sitemap fetches. -/
theorem sitemap_early_termination (d : List String) :
    (∀ (t : SitemapTree) (c : URLCollector), 0 < c.limit →
      c.limit ≤ (c.urls.length : Int) →
      get_sitemap_urls t c d = (c, c.urls, [])) ∧
    (∀ (ts : List SitemapTree) (c : URLCollector), 0 < c.limit →
      c.limit ≤ (c.urls.length : Int) →
      sitemap_children ts c d = (c, [])) := by
  refine ⟨sitemap_full_short_circuit d, ?_⟩
  intro ts c h0 h1
  cases ts with
  | nil => rw [sitemap_children.eq_def]
  | cons t ts =>
    rw [sitemap_children.eq_def]
    dsimp only
    rw [if_pos ⟨h0, h1⟩]

/-- Witness for C3: a full collector (limit 1, one URL stored) makes both
the recursive resolver and the child loop return at once with no fetches. -/
theorem sitemap_early_termination_witness :
    (0 : Int) < 1 ∧ (1 : Int) ≤ 1 ∧
    get_sitemap_urls (.index "i" [.urlset "s" ["x"]]) ⟨1, ["a"]⟩ []
      = (⟨1, ["a"]⟩, ["a"], []) ∧
    sitemap_children [.urlset "s" ["x"]] ⟨1, ["a"]⟩ [] = (⟨1, ["a"]⟩, []) :=
  ⟨by decide, by decide,
   (sitemap_early_termination []).1 (.index "i" [.urlset "s" ["x"]])
     ⟨1, ["a"]⟩ (by decide) (by decide),
   (sitemap_early_termination []).2 [.urlset "s" ["x"]]
     ⟨1, ["a"]⟩ (by decide) (by decide)⟩

/-- C7: a sitemap node whose fetch fails contributes no URLs — the
collector comes back unchanged (the code returns `[]` after logging) —
and in a sitemap index the siblings after a failed child are processed
exactly as they would otherwise have been; the model is a total function,
mirroring that `requests.RequestException` is caught and never escapes. -/
theorem sitemap_fetch_failure_isolated (d : List String) (u : String)
    (ts : List SitemapTree) (c : URLCollector)
    (hnf : ¬(c.limit > 0 ∧ (c.urls.length : Int) ≥ c.limit)) :
    get_sitemap_urls (.fetchFail u) c d = (c, [], [u]) ∧
    sitemap_children (SitemapTree.fetchFail u :: ts) c d
      = ((sitemap_children ts c d).1, u :: (sitemap_children ts c d).2) := by
  have h1 : get_sitemap_urls (.fetchFail u) c d = (c, [], [u]) := by
    rw [get_sitemap_urls.eq_def]
    dsimp only
    rw [if_neg hnf]
  refine ⟨h1, ?_⟩
  rw [sitemap_children.eq_def]
  dsimp only
  rw [if_neg hnf, h1]
  simp

/-- Witness for C7: with room left (limit 2, one URL), a failed first
child leaves the collector alone and the sibling urlset is still added. -/
theorem sitemap_fetch_failure_isolated_witness :
    ¬((2 : Int) > 0 ∧ ((1 : Nat) : Int) ≥ 2) ∧
    get_sitemap_urls (.fetchFail "f") ⟨2, ["a"]⟩ [] = (⟨2, ["a"]⟩, [], ["f"]) ∧
    sitemap_children [.fetchFail "f", .urlset "s" ["b"]] ⟨2, ["a"]⟩ []
      = ((sitemap_children [.urlset "s" ["b"]] ⟨2, ["a"]⟩ []).1,
         "f" :: (sitemap_children [.urlset "s" ["b"]] ⟨2, ["a"]⟩ []).2) :=
  ⟨by decide,
   (sitemap_fetch_failure_isolated [] "f" [.urlset "s" ["b"]] ⟨2, ["a"]⟩
     (by decide)).1,
   (sitemap_fetch_failure_isolated [] "f" [.urlset "s" ["b"]] ⟨2, ["a"]⟩
     (by decide)).2⟩

lemma add_urls_mem (c : URLCollector) (l : List String) (x : String)
    (hx : x ∈ (c.add_urls l).1.urls) : x ∈ c.urls ∨ x ∈ l := by
  unfold URLCollector.add_urls at hx
  split at hx
  · simp only [List.mem_append] at hx
    exact hx
  · dsimp only at hx
    split at hx
    · exact Or.inl hx
    · split at hx
      · simp only [List.mem_append] at hx
        rcases hx with h | h
        · exact Or.inl h
        · exact Or.inr (List.take_subset _ _ h)
      · simp only [List.mem_append] at hx
        exact hx

lemma add_urls_unbounded (c : URLCollector) (l : List String)
    (h : c.limit ≤ 0) : (c.add_urls l).1.urls = c.urls ++ l := by
  unfold URLCollector.add_urls
  rw [if_pos h]

lemma single_url_added (limit : Int) (s : String) :
    ((⟨limit, []⟩ : URLCollector).add_urls [s]).1.urls = [s] := by
  unfold URLCollector.add_urls
  dsimp only
  split
  · rfl
  · rename_i h
    rw [if_neg (by simp only [List.length_nil, Nat.cast_zero]; omega),
        if_neg (by simp only [List.length_nil, List.length_cons, Nat.cast_zero,
          Nat.cast_ofNat, Nat.cast_one]; omega)]
    rfl

lemma get_allowed_urls_single (su : String) (tree : SitemapTree)
    (frags : List String) (limit : Int)
    (hxml : ¬((".xml").data <:+: su.data.map Char.toLower)) :
    get_allowed_urls su tree frags limit
      = if is_allowed su frags then [su] else [] := by
  unfold get_allowed_urls
  rw [if_neg hxml]
  cases h : is_allowed su frags with
  | true => simp [h, single_url_added]
  | false => simp [h]

lemma urlset_added_mem (w : String) (locs frags : List String)
    (c : URLCollector) (x : String)
    (hx : x ∈ (get_sitemap_urls (.urlset w locs) c frags).1.urls) :
    x ∈ c.urls ∨ (x ∈ locs ∧ is_allowed x frags = true) := by
  rw [get_sitemap_urls.eq_def] at hx
  dsimp only at hx
  by_cases hfull : c.limit > 0 ∧ (c.urls.length : Int) ≥ c.limit
  · rw [if_pos hfull] at hx
    exact Or.inl hx
  · rw [if_neg hfull] at hx
    dsimp only at hx
    rcases add_urls_mem _ _ _ hx with h | h
    · exact Or.inl h
    · rw [List.mem_filter] at h
      exact Or.inr h

/-- C6: disallowed-fragment filtering — `is_allowed` rejects exactly the
URLs containing some fragment as a case-sensitive substring; in the
single-URL path of `get_allowed_urls` the URL is kept exactly when it is
allowed; in the urlset path of `get_sitemap_urls` every URL that enters the
collector is an allowed member of the document, and with no limit every
allowed URL of the document enters the collector. -/
theorem disallowed_fragment_filtering (u su w : String) (tree : SitemapTree)
    (locs frags : List String) (c : URLCollector) (limit : Int)
    (hxml : ¬((".xml").data <:+: su.data.map Char.toLower)) :
    (is_allowed u frags = false ↔ ∃ f ∈ frags, f.data <:+: u.data) ∧
    (get_allowed_urls su tree frags limit
      = if is_allowed su frags then [su] else []) ∧
    (∀ x ∈ (get_sitemap_urls (.urlset w locs) c frags).1.urls,
      x ∈ c.urls ∨ (x ∈ locs ∧ is_allowed x frags = true)) ∧
    (c.limit ≤ 0 → ∀ x ∈ locs, is_allowed x frags = true →
      x ∈ (get_sitemap_urls (.urlset w locs) c frags).1.urls) := by
  refine ⟨?_, get_allowed_urls_single su tree frags limit hxml,
      fun x hx => urlset_added_mem w locs frags c x hx, ?_⟩
  · simp [is_allowed]
  · intro hle x hxl hxa
    rw [get_sitemap_urls.eq_def]
    dsimp only
    rw [if_neg (by omega)]
    dsimp only
    rw [add_urls_unbounded _ _ hle]
    simp only [List.mem_append, List.mem_filter]
    exact Or.inr ⟨hxl, hxa⟩

/-- Witness for C6: the fragment "bad" excludes "a/bad/x" and admits
"a/ok", the single-URL path keeps an allowed page URL, and the urlset path
on an unlimited collector adds exactly the allowed locs. -/
theorem disallowed_fragment_filtering_witness :
    ¬((".xml").data <:+: ("page").data.map Char.toLower) ∧
    (is_allowed "a/bad/x" ["bad"] = false ↔
      ∃ f ∈ ["bad"], f.data <:+: ("a/bad/x").data) ∧
    (get_allowed_urls "page" (.unrec "page") ["bad"] 0
      = if is_allowed "page" ["bad"] then ["page"] else []) ∧
    (∀ x ∈ (get_sitemap_urls (.urlset "s" ["a/ok", "a/bad/x"]) ⟨0, []⟩
        ["bad"]).1.urls,
      x ∈ ([] : List String) ∨
        (x ∈ ["a/ok", "a/bad/x"] ∧ is_allowed x ["bad"] = true)) ∧
    ((0 : Int) ≤ 0 → ∀ x ∈ ["a/ok", "a/bad/x"], is_allowed x ["bad"] = true →
      x ∈ (get_sitemap_urls (.urlset "s" ["a/ok", "a/bad/x"]) ⟨0, []⟩
        ["bad"]).1.urls) := by
  have h := disallowed_fragment_filtering "a/bad/x" "page" "s" (.unrec "page")
      ["a/ok", "a/bad/x"] ["bad"] ⟨0, []⟩ 0 (by decide)
  exact ⟨by decide, h.1, h.2.1, h.2.2.1, h.2.2.2⟩

/-- C9: with an empty disallowed-fragment list every URL passes the
filter: `is_allowed` is constantly true, the urlset filter keeps the whole
document, and the single-URL path of `get_allowed_urls` keeps the URL. -/
theorem empty_fragments_allow_all (u su : String) (tree : SitemapTree)
    (locs : List String) (limit : Int)
    (hxml : ¬((".xml").data <:+: su.data.map Char.toLower)) :
    is_allowed u [] = true ∧
    locs.filter (fun x => is_allowed x []) = locs ∧
    get_allowed_urls su tree [] limit = [su] := by
  refine ⟨by simp [is_allowed], ?_, ?_⟩
  · simp [is_allowed]
  · rw [get_allowed_urls_single su tree [] limit hxml]
    simp [is_allowed]

/-- Witness for C9: with no configured fragments, the page URL "page" is
allowed, a two-element urlset is kept whole, and the single-URL path
returns it. -/
theorem empty_fragments_allow_all_witness :
    ¬((".xml").data <:+: ("page").data.map Char.toLower) ∧
    is_allowed "page" [] = true ∧
    ["a", "b"].filter (fun x => is_allowed x []) = ["a", "b"] ∧
    get_allowed_urls "page" (.unrec "page") [] 3 = ["page"] := by
  have h := empty_fragments_allow_all "page" "page" (.unrec "page")
      ["a", "b"] 3 (by decide)
  exact ⟨by decide, h.1, h.2.1, h.2.2⟩

/-- C5: a `scrape_content` call that finds the stop flag already set
returns the empty record at once with an empty event trace — no HTTP
request and no browser render is issued. -/
theorem extract_stopped_no_network (url : String) (pause stop_flag : Nat → Bool)
    (fetch : Option PageContent) (urljoin : String → String → String)
    (js_enabled : Bool) (fuel : Nat) (h : stop_flag 0 = true) :
    scrape_content url pause stop_flag fetch urljoin js_enabled fuel
      = some (none, []) := by
  unfold scrape_content
  rw [if_pos h]

/-- Witness for C5: with the stop stream constantly set, a fetchable page
and the browser-render mode still produce the empty record and no events. -/
theorem extract_stopped_no_network_witness :
    (fun _ : Nat => true) 0 = true ∧
    scrape_content "u" (fun _ => false) (fun _ => true)
      (some ⟨["h"], [], [], none, none, none⟩) (fun _ s => s) true 3
      = some (none, []) :=
  ⟨rfl, extract_stopped_no_network "u" (fun _ => false) (fun _ => true)
    (some ⟨["h"], [], [], none, none, none⟩) (fun _ s => s) true 3 rfl⟩

/-- C10: when the network fetch fails, `scrape_content` returns the empty
record with no politeness sleep in its trace, and conversely a trace
containing the politeness sleep only arises on the successful path, with
the populated record of the fetched page. -/
theorem extract_failure_no_delay (url : String) (pause stop_flag : Nat → Bool)
    (fetch : Option PageContent) (urljoin : String → String → String)
    (js_enabled : Bool) (fuel : Nat) (r : Option ScrapeRecord)
    (evs : List ScrapeEv)
    (hrun : scrape_content url pause stop_flag fetch urljoin js_enabled fuel
      = some (r, evs)) :
    (fetch = none → r = none ∧ ScrapeEv.sleepDelay ∉ evs) ∧
    (ScrapeEv.sleepDelay ∈ evs → ∃ page, fetch = some page ∧
      r = some (extract_record url urljoin page)) := by
  unfold scrape_content at hrun
  split at hrun
  · simp only [Option.some.injEq, Prod.mk.injEq] at hrun
    obtain ⟨rfl, rfl⟩ := hrun
    exact ⟨fun _ => ⟨rfl, by simp⟩, fun h => absurd h (by simp)⟩
  · split at hrun
    · exact absurd hrun (by simp)
    · simp only [Option.some.injEq, Prod.mk.injEq] at hrun
      obtain ⟨rfl, rfl⟩ := hrun
      exact ⟨fun _ => ⟨rfl, by simp⟩, fun h => absurd h (by simp)⟩
    · rcases fetch with _ | page
      · dsimp only at hrun
        simp only [Option.some.injEq, Prod.mk.injEq] at hrun
        obtain ⟨rfl, rfl⟩ := hrun
        refine ⟨fun _ => ⟨rfl, ?_⟩, fun h => absurd h ?_⟩
        · cases js_enabled <;> simp
        · cases js_enabled <;> simp
      · dsimp only at hrun
        split at hrun
        · simp only [Option.some.injEq, Prod.mk.injEq] at hrun
          obtain ⟨rfl, rfl⟩ := hrun
          refine ⟨fun hf => absurd hf (by simp), fun h => absurd h ?_⟩
          cases js_enabled <;> simp
        · split at hrun
          · exact absurd hrun (by simp)
          · simp only [Option.some.injEq, Prod.mk.injEq] at hrun
            obtain ⟨rfl, rfl⟩ := hrun
            refine ⟨fun hf => absurd hf (by simp), fun h => absurd h ?_⟩
            cases js_enabled <;> simp
          · simp only [Option.some.injEq, Prod.mk.injEq] at hrun
            obtain ⟨rfl, rfl⟩ := hrun
            exact ⟨fun hf => absurd hf (by simp), fun _ => ⟨page, rfl, rfl⟩⟩

/-- Witness for C10: a failed plain-HTTP fetch yields the empty record and
a trace holding only the GET, with no politeness sleep. -/
theorem extract_failure_no_delay_witness :
    scrape_content "u" (fun _ => false) (fun _ => false) none (fun _ s => s)
      false 0 = some (none, [ScrapeEv.httpGet "u"]) ∧
    ((none : Option PageContent) = none →
      (none : Option ScrapeRecord) = none ∧
      ScrapeEv.sleepDelay ∉ [ScrapeEv.httpGet "u"]) ∧
    (ScrapeEv.sleepDelay ∈ [ScrapeEv.httpGet "u"] →
      ∃ page, (none : Option PageContent) = some page ∧
        (none : Option ScrapeRecord)
          = some (extract_record "u" (fun _ s => s) page)) :=
  ⟨rfl,
   (extract_failure_no_delay "u" (fun _ => false) (fun _ => false) none
     (fun _ s => s) false 0 none [ScrapeEv.httpGet "u"] rfl).1,
   (extract_failure_no_delay "u" (fun _ => false) (fun _ => false) none
     (fun _ s => s) false 0 none [ScrapeEv.httpGet "u"] rfl).2⟩

lemma scrape_loop_no_stop (total : Nat) (stop_flag : Nat → Bool)
    (hns : ∀ i, stop_flag i = false) :
    ∀ (completions : List (String × TaskOutcome)) (i : Nat),
    scrape_loop total stop_flag i completions
      = (successful_records completions,
         (completions.enumFrom i).map
           (fun p => (p.1, total, completion_msg p.1 total p.2.1 p.2.2))) := by
  intro comps
  induction comps with
  | nil => intro i; rfl
  | cons hd rest ih =>
    intro i
    obtain ⟨url, outcome⟩ := hd
    rcases outcome with data | e
    · rcases data with _ | d
      · simp [scrape_loop, hns i, ih, successful_records, completion_msg]
      · simp [scrape_loop, hns i, ih, successful_records, completion_msg]
    · simp [scrape_loop, hns i, ih, successful_records, completion_msg]

/-- C4: with the stop event never set during consumption, running the
orchestrator over `N` URLs emits exactly `N` progress notifications
numbered `1..N` in completion order, each carrying `total = N`, and the
returned list is exactly the records of the completions whose extraction
succeeded, in completion order. -/
theorem orchestrator_progress_and_results (urls : List String)
    (completions : List (String × TaskOutcome)) (stop_flag : Nat → Bool)
    (hns : ∀ i, stop_flag i = false)
    (hlen : completions.length = urls.length) :
    (scrape_all_urls urls completions stop_flag).2.length = urls.length ∧
    (scrape_all_urls urls completions stop_flag).2.map (fun p => p.1)
      = List.range' 1 urls.length ∧
    (∀ p ∈ (scrape_all_urls urls completions stop_flag).2,
      p.2.1 = urls.length) ∧
    (scrape_all_urls urls completions stop_flag).1
      = successful_records completions := by
  unfold scrape_all_urls
  by_cases hz : urls.length = 0
  · rw [if_pos hz]
    rw [hz] at hlen
    rw [List.length_eq_zero] at hlen
    subst hlen
    simp [hz, successful_records]
  · rw [if_neg hz]
    rw [scrape_loop_no_stop _ _ hns]
    refine ⟨by simpa using hlen, ?_, ?_, rfl⟩
    · rw [List.map_map]
      have : ((fun p => p.1) ∘
          fun p : Nat × String × TaskOutcome =>
            (p.1, urls.length, completion_msg p.1 urls.length p.2.1 p.2.2))
          = Prod.fst := rfl
      rw [this, List.enumFrom_map_fst, hlen]
    · intro p hp
      simp only [List.mem_map] at hp
      obtain ⟨q, _, rfl⟩ := hp
      rfl

/-- Witness for C4: two URLs completing out of submission order, the first
with a record and the second empty, give two notifications numbered 1 and
2 and a one-record result list. -/
theorem orchestrator_progress_and_results_witness :
    (∀ i, (fun _ : Nat => false) i = false) ∧
    ([("b", TaskOutcome.ok (some ⟨"b", [], [], [], "", "", ""⟩)),
      ("a", TaskOutcome.ok none)].length = ["a", "b"].length) ∧
    (scrape_all_urls ["a", "b"]
      [("b", TaskOutcome.ok (some ⟨"b", [], [], [], "", "", ""⟩)),
       ("a", TaskOutcome.ok none)] (fun _ => false)).2.map (fun p => p.1)
      = List.range' 1 2 ∧
    (scrape_all_urls ["a", "b"]
      [("b", TaskOutcome.ok (some ⟨"b", [], [], [], "", "", ""⟩)),
       ("a", TaskOutcome.ok none)] (fun _ => false)).1
      = successful_records
          [("b", TaskOutcome.ok (some ⟨"b", [], [], [], "", "", ""⟩)),
           ("a", TaskOutcome.ok none)] :=
  ⟨fun _ => rfl, rfl,
   (orchestrator_progress_and_results ["a", "b"]
     [("b", TaskOutcome.ok (some ⟨"b", [], [], [], "", "", ""⟩)),
      ("a", TaskOutcome.ok none)] (fun _ => false) (fun _ => rfl) rfl).2.1,
   (orchestrator_progress_and_results ["a", "b"]
     [("b", TaskOutcome.ok (some ⟨"b", [], [], [], "", "", ""⟩)),
      ("a", TaskOutcome.ok none)] (fun _ => false) (fun _ => rfl) rfl).2.2.2⟩

lemma scrape_loop_messages (total : Nat) (stop_flag : Nat → Bool) :
    ∀ (completions : List (String × TaskOutcome)) (i : Nat),
    ∃ n, (scrape_loop total stop_flag i completions).2
      = ((completions.take n).enumFrom i).map
          (fun p => (p.1, total, completion_msg p.1 total p.2.1 p.2.2)) := by
  intro comps
  induction comps with
  | nil => intro i; exact ⟨0, rfl⟩
  | cons hd rest ih =>
    intro i
    obtain ⟨url, outcome⟩ := hd
    by_cases hs : stop_flag i = true
    · refine ⟨0, ?_⟩
      simp [scrape_loop, hs]
    · obtain ⟨n, hn⟩ := ih (i + 1)
      refine ⟨n + 1, ?_⟩
      rw [List.take_succ_cons]
      rcases outcome with data | e
      · rcases data with _ | d
        · simp [scrape_loop, hs, hn, completion_msg]
        · simp [scrape_loop, hs, hn, completion_msg]
      · simp [scrape_loop, hs, hn, completion_msg]

/-- C8 counterexample: on an empty result the code builds the status
message "[1/1] Échec ou annulé: u" — not the string
"[1/1] skipped/cancelled: u" that the claim states verbatim. -/
theorem empty_result_msg_counterexample :
    (scrape_all_urls ["u"] [("u", TaskOutcome.ok none)] (fun _ => false)).2
      = [(1, 1, "[1/1] Échec ou annulé: u")] ∧
    "[1/1] Échec ou annulé: u" ≠ "[1/1] skipped/cancelled: u" :=
  ⟨rfl, by decide⟩

/-- C8 (amended): whatever the stop stream, the completions the
orchestrator observes are an initial prefix of the completion sequence,
and each observed completion `i` of `total` emits to the log,
`log_callback` and `progress_callback` exactly the reference message:
"[i/total] OK: url" on success with a non-empty record,
"[i/total] Échec ou annulé: url" — the code's French rendering of
skipped/cancelled — on an empty result, and
"[i/total] Exception pour url: e" on a task exception. -/
theorem completion_messages (urls : List String)
    (completions : List (String × TaskOutcome)) (stop_flag : Nat → Bool) :
    ∃ n, (scrape_all_urls urls completions stop_flag).2
      = ((completions.take n).enumFrom 1).map
          (fun p => (p.1, urls.length,
            completion_msg p.1 urls.length p.2.1 p.2.2)) := by
  unfold scrape_all_urls
  by_cases hz : urls.length = 0
  · rw [if_pos hz]
    exact ⟨0, rfl⟩
  · rw [if_neg hz]
    exact scrape_loop_messages urls.length stop_flag completions 1
